import Mathlib

/-!
Shallow embedding of the headless-editor-mcp core: the LSP-backed edit
pipeline (`src/services/EditOperationManager.ts`), the session registry
(`src/services/SessionManager.ts`), the language-server registry
(`src/services/LSPManager.ts`), the document store
(`src/services/DocumentManager.ts`), the path-validation layer
(`src/utils/fs.ts`) and the range validator (`src/services/Validator.ts`).

Machine integers are modelled as `Nat`/`Int`; JavaScript `Map`s as
association lists in insertion order; rejected promises / thrown errors as
`Except`; `Date.now()` as an explicit `now : Nat` argument.  The helper
functions of the `vscode-languageserver-textdocument` npm package that the
code calls (`TextDocument.create`, `TextDocument.applyEdits`, `offsetAt`,
line-offset computation) are embedded from that package's published
implementation; string offsets are counted in characters rather than
UTF-16 code units, which agrees on ASCII text.
-/

set_option autoImplicit false

namespace HeadlessEditor

/-- LSP `Position`: zero-based line / character (`vscode-languageserver-protocol`). -/
structure Position where
  line : Nat
  character : Nat
deriving DecidableEq, Repr

/-- LSP `Range`; the source field `end` is spelled `endPos` here (`end` is a Lean keyword). -/
structure Range where
  start : Position
  endPos : Position
deriving DecidableEq, Repr

/-- LSP `TextEdit`: `{range, newText}`. -/
structure TextEdit where
  range : Range
  newText : String
deriving DecidableEq, Repr

/-- LSP `Diagnostic` (fields the code inspects). `severity = some 1` is
`DiagnosticSeverity.Error`; `some 2` warning, `some 3` information. -/
structure Diagnostic where
  range : Range
  severity : Option Nat
  message : String
deriving DecidableEq, Repr

/-- `TextDocument` snapshot from `vscode-languageserver-textdocument`:
`{uri, languageId, version, text}`.  `TextDocument.create uri lang v text`
is the anonymous constructor. -/
structure TextDocument where
  uri : String
  languageId : String
  version : Nat
  text : String
deriving DecidableEq, Repr

/-- All errors thrown by the code, flattened: `BaseError` carries
`(message, code)`; subclass constructors prefix the code
(`src/types/errors.ts`).  A plain JavaScript `Error` is modelled with
`code := ""`. -/
structure AppError where
  message : String
  code : String
deriving DecidableEq, Repr

/-- `FileSystemError`: code prefixed with `FS_`. -/
def fsError (message code : String) : AppError := ⟨message, "FS_" ++ code⟩

/-- `SessionError`: code prefixed with `SESSION_`. -/
def sessionError (message code : String) : AppError := ⟨message, "SESSION_" ++ code⟩

/-- `EditError` (`src/services/EditOperationManager.ts`): code prefixed with `EDIT_`. -/
def editError (message code : String) : AppError := ⟨message, "EDIT_" ++ code⟩

/-- `LSPError` (`src/services/LSPManager.ts`): code prefixed with `LSP_`. -/
def lspError (message code : String) : AppError := ⟨message, "LSP_" ++ code⟩

/-- `DocumentError` (`src/services/DocumentManager.ts`): code prefixed with `DOCUMENT_`. -/
def documentError (message code : String) : AppError := ⟨message, "DOCUMENT_" ++ code⟩

/-- The plain `Error('Overlapping edit')` thrown by `TextDocument.applyEdits`. -/
def overlappingEditError : AppError := ⟨"Overlapping edit", ""⟩

/-! ### Association-list model of JavaScript `Map` (insertion order, in-place update) -/

/-- `Map.get`: first entry with the key. -/
def mapGet {α : Type} (m : List (String × α)) (k : String) : Option α :=
  match m with
  | [] => none
  | (k', v) :: rest => if k' = k then some v else mapGet rest k

/-- `Map.set`: update in place if the key is present, else append. -/
def mapSet {α : Type} (m : List (String × α)) (k : String) (v : α) : List (String × α) :=
  match m with
  | [] => [(k, v)]
  | (k', v') :: rest => if k' = k then (k', v) :: rest else (k', v') :: mapSet rest k v

/-- `Map.delete`: remove the entry with the key. -/
def mapDelete {α : Type} (m : List (String × α)) (k : String) : List (String × α) :=
  match m with
  | [] => []
  | (k', v') :: rest => if k' = k then rest else (k', v') :: mapDelete rest k

/-! ### `vscode-languageserver-textdocument` helpers used by the code -/

/-- Offsets just after each line break (`computeLineOffsets` without the
leading offset); `\r\n`, `\r` and `\n` are breaks. -/
def lineBreakOffsets : List Char → Nat → List Nat
  | [], _ => []
  | '\r' :: '\n' :: rest, i => (i + 2) :: lineBreakOffsets rest (i + 2)
  | '\r' :: rest, i => (i + 1) :: lineBreakOffsets rest (i + 1)
  | '\n' :: rest, i => (i + 1) :: lineBreakOffsets rest (i + 1)
  | _ :: rest, i => lineBreakOffsets rest (i + 1)

/-- `computeLineOffsets(text, true)`: offset of the start of each line. -/
def getLineOffsets (text : String) : List Nat :=
  0 :: lineBreakOffsets text.data 0

/-- `TextDocument.offsetAt(position)`: clamps the line to end-of-file and
the character to the line's extent (the `position.line < 0` branch of the
source is unrepresentable with `Nat` coordinates). -/
def offsetAt (doc : TextDocument) (p : Position) : Nat :=
  let lineOffsets := getLineOffsets doc.text
  if p.line ≥ lineOffsets.length then
    doc.text.length
  else
    let lineOffset := lineOffsets.getD p.line 0
    let nextLineOffset :=
      if p.line + 1 < lineOffsets.length then lineOffsets.getD (p.line + 1) 0
      else doc.text.length
    max (min (lineOffset + p.character) nextLineOffset) lineOffset

/-- `getWellformedRange`: swaps the endpoints when `start` is after `end`. -/
def getWellformedRange (r : Range) : Range :=
  if r.start.line > r.endPos.line ∨
      (r.start.line = r.endPos.line ∧ r.start.character > r.endPos.character) then
    ⟨r.endPos, r.start⟩
  else r

/-- `getWellformedEdit`. -/
def getWellformedEdit (e : TextEdit) : TextEdit :=
  { e with range := getWellformedRange e.range }

/-- Comparator of `TextDocument.applyEdits`' merge sort: order by start
line, then start character (`true` = keep `a` before `b`). -/
def editLe (a b : TextEdit) : Bool :=
  if a.range.start.line = b.range.start.line then
    a.range.start.character ≤ b.range.start.character
  else a.range.start.line ≤ b.range.start.line

/-- Stable insertion of an edit behind all edits ordered no later than it. -/
def insertEdit (e : TextEdit) : List TextEdit → List TextEdit
  | [] => [e]
  | x :: xs => if editLe x e then x :: insertEdit e xs else e :: x :: xs

/-- Stable sort by start position — same output as the package's stable
`mergeSort` with the numeric-difference comparator. -/
def sortEdits : List TextEdit → List TextEdit
  | [] => []
  | e :: es => insertEdit e (sortEdits es)

/-- The right-to-left splice loop of `TextDocument.applyEdits`; `none`
models the thrown `Error('Overlapping edit')`. -/
def applyEditsGo (doc : TextDocument) : List TextEdit → Nat → String → Option String
  | [], lastModifiedOffset, acc =>
      some ((doc.text.take lastModifiedOffset) ++ acc)
  | e :: earlier, lastModifiedOffset, acc =>
      let startOffset := offsetAt doc e.range.start
      let endOffset := offsetAt doc e.range.endPos
      if endOffset ≤ lastModifiedOffset then
        applyEditsGo doc earlier startOffset
          (e.newText ++ ((doc.text.take lastModifiedOffset).drop endOffset) ++ acc)
      else none

/-- `TextDocument.applyEdits(document, edits)`: sort the well-formed
edits, splice from the last edit backwards, reject overlaps. -/
def applyEdits (doc : TextDocument) (edits : List TextEdit) : Option String :=
  applyEditsGo doc (sortEdits (edits.map getWellformedEdit)).reverse doc.text.length ""

/-! ### Edit operations (`src/types/editor.ts`) -/

/-- `EditOperationType` — the full union from `src/types/editor.ts`;
only the first three are supported by `createEdit`. -/
inductive EditOperationType where
  | insert | delete | replace | move | wrap | addImport | addProp | addHook
deriving DecidableEq, Repr

/-- Printed form of the operation type (used in error messages). -/
def EditOperationType.name : EditOperationType → String
  | .insert => "insert"
  | .delete => "delete"
  | .replace => "replace"
  | .move => "move"
  | .wrap => "wrap"
  | .addImport => "addImport"
  | .addProp => "addProp"
  | .addHook => "addHook"

/-- `EditOperation`: `{type, content?, position?, range?}`. -/
structure EditOperation where
  type : EditOperationType
  content : Option String := none
  position : Option Position := none
  range : Option Range := none
deriving DecidableEq, Repr

/-- JavaScript truthiness of `operation.content`: `undefined` and the
empty string are falsy. -/
def contentTruthy : Option String → Bool
  | none => false
  | some s => !s.isEmpty

/-- `EditOperationManager.createEdit`: translate an operation to a
`TextEdit`, throwing `EDIT_INVALID_OPERATION` / `EDIT_UNSUPPORTED_OPERATION`
on a bad shape.  The `document` parameter is unused, as in the source. -/
def createEdit (_document : TextDocument) (operation : EditOperation) :
    Except AppError TextEdit :=
  match operation.type with
  | .insert =>
      match operation.position, contentTruthy operation.content with
      | some position, true =>
          .ok { range := ⟨position, position⟩,
                newText := operation.content.getD "" }
      | _, _ =>
          .error (editError "Missing required fields for insert operation" "INVALID_OPERATION")
  | .delete =>
      match operation.range with
      | some range => .ok { range := range, newText := "" }
      | none => .error (editError "Missing range for delete operation" "INVALID_OPERATION")
  | .replace =>
      match operation.range, contentTruthy operation.content with
      | some range, true =>
          .ok { range := range, newText := operation.content.getD "" }
      | _, _ =>
          .error (editError "Missing required fields for replace operation" "INVALID_OPERATION")
  | other =>
      .error (editError ("Unsupported operation type: " ++ other.name) "UNSUPPORTED_OPERATION")

/-- `EditOperationManager.validateOperation`: the structural re-check run
after `createEdit` (the missing-`type` branch of the source is
unrepresentable for an inductive type). -/
def validateOperation (operation : EditOperation) : Except AppError Unit :=
  if (operation.type = .insert ∨ operation.type = .replace) ∧
      contentTruthy operation.content = false then
    .error (editError "Missing content for operation" "INVALID_OPERATION")
  else if operation.type = .insert ∧ operation.position = none then
    .error (editError "Missing position for insert operation" "INVALID_OPERATION")
  else if (operation.type = .delete ∨ operation.type = .replace) ∧
      operation.range = none then
    .error (editError "Missing range for operation" "INVALID_OPERATION")
  else .ok ()

/-! ### Session data model (`src/types/editor.ts`) -/

/-- `EditOperationState`: one history entry. -/
structure EditOperationState where
  timestamp : Nat
  changes : List TextEdit
  documentVersion : Nat
deriving DecidableEq, Repr

/-- `EditHistory`: the bounded undo/redo log.  `currentIndex` is `-1`-able,
hence `Int`. -/
structure EditHistory where
  operations : List EditOperationState
  currentIndex : Int
  canUndo : Bool
  canRedo : Bool
deriving DecidableEq, Repr

/-- `ValidationState`. -/
structure ValidationState where
  lastChecked : Nat
  diagnostics : List Diagnostic
  isValid : Bool
  inProgress : Bool
deriving DecidableEq, Repr

/-- `LanguageServerState`; the opaque `capabilities` record and the
optional `lastError` (touched only by `updateLanguageServerState`, which
no embedded path calls) are not modelled. -/
structure LanguageServerState where
  connected : Bool
deriving DecidableEq, Repr

/-- `SessionState`. -/
structure SessionState where
  editHistory : EditHistory
  validationState : ValidationState
  languageServerState : LanguageServerState
  lastModified : Nat
  isSaving : Bool
  isDirty : Bool
deriving DecidableEq, Repr

/-- `EditSession`. -/
structure EditSession where
  id : String
  filePath : String
  document : TextDocument
  languageId : String
  createdAt : Nat
  lastActivity : Nat
  state : SessionState
deriving DecidableEq, Repr

/-! ### Language-server registry (`src/services/LSPManager.ts`) -/

/-- The registry's mutable maps, reduced to what the embedded paths
observe: which languages have a running server (`servers` keys) and which
have a configuration (`configs` keys).  The spawned subprocess and its
protocol connection are external I/O. -/
structure LSPState where
  servers : List String
  configs : List String
deriving DecidableEq, Repr

/-- Languages of `DEFAULT_SERVER_CONFIGS`. -/
def DEFAULT_SERVER_CONFIGS : List String := ["typescript", "javascript", "python"]

/-- `LSPManagerImpl.startServer`: duplicate start fails with
`LSP_SERVER_EXISTS`, an unconfigured language with `LSP_NO_CONFIG`;
otherwise the server is registered (the subprocess spawn in
`createServer` is external I/O, modelled as succeeding — its failure path
is the `LSP_START_FAILED` wrap, which no claim touches). -/
def startServer (lsp : LSPState) (language : String) : Except AppError LSPState :=
  if lsp.servers.contains language then
    .error (lspError ("Server already running for " ++ language) "SERVER_EXISTS")
  else if lsp.configs.contains language then
    .ok { lsp with servers := lsp.servers ++ [language] }
  else
    .error (lspError ("No configuration found for " ++ language) "NO_CONFIG")

/-- `LSPManagerImpl.getServer`: return the running server or lazily start
one. -/
def getServer (lsp : LSPState) (language : String) : Except AppError LSPState :=
  if lsp.servers.contains language then .ok lsp
  else startServer lsp language

/-- `String.prototype.startsWith` (used by the allow-list checks),
spelled over the character lists so that proofs can evaluate it. -/
def strStartsWith (s p : String) : Bool := p.data.isPrefixOf s.data

/-! ### File-system capability (`src/utils/fs.ts`)

`LocalFileSystemManager` sits on Node's `path`/`fs` primitives, modelled
as an abstract disk: `resolve` is `path.resolve`, `realpath` is
`fs.realpath` (`none` = rejection, e.g. `ENOENT` on a missing file),
`accessOk` is `fs.access` succeeding, `fileContent` is `fs.readFile`
succeeding with that text.  The two-argument `validatePath(path,
allowedDirs)` interface ignores its second argument in the
implementation, which uses the constructor's allow-list; both are the
same list here. -/

structure FSModel where
  resolve : String → String
  realpath : String → Option String
  accessOk : String → Bool
  fileContent : String → Option String

/-- `LocalFileSystemManager.isInAllowedDirs`: throws `FS_INVALID_PATH`
when the resolved path is under no allowed root (it never returns
`false`). -/
def isInAllowedDirs (fsm : FSModel) (allowedDirs : List String)
    (requestedPath : String) : Except AppError Bool :=
  let resolvedPath := fsm.resolve requestedPath
  if allowedDirs.any (fun dir => strStartsWith resolvedPath (fsm.resolve dir)) then
    .ok true
  else
    .error (fsError "Path is outside allowed directories" "INVALID_PATH")

/-- `LocalFileSystemManager.validatePath`: allow-list check, then symlink
resolution.  Both a failing `realpath` (missing file) and a symlink
target outside the roots end in the `catch` block, which rethrows
`FS_VALIDATION_ERROR` — the `FS_INVALID_SYMLINK` throw is inside the
`try` and is swallowed by that same `catch`. -/
def validatePath (fsm : FSModel) (allowedDirs : List String)
    (requestedPath : String) : Except AppError String :=
  let resolvedPath := fsm.resolve requestedPath
  match isInAllowedDirs fsm allowedDirs resolvedPath with
  | .error e => .error e
  | .ok _ =>
      match fsm.realpath resolvedPath with
      | none => .error (fsError "Failed to validate path" "VALIDATION_ERROR")
      | some realPath =>
          if allowedDirs.any (fun dir => strStartsWith (fsm.resolve realPath) (fsm.resolve dir)) then
            .ok realPath
          else
            .error (fsError "Failed to validate path" "VALIDATION_ERROR")

/-- `LocalFileSystemManager.exists`: validate, then probe with
`fs.access`. -/
def fsExists (fsm : FSModel) (allowedDirs : List String) (filePath : String) :
    Except AppError Bool :=
  (validatePath fsm allowedDirs filePath).map fun _ => fsm.accessOk filePath

/-- `LocalFileSystemManager.readFile`: validate, then read
(`FS_READ_ERROR` on failure). -/
def fsReadFile (fsm : FSModel) (allowedDirs : List String) (filePath : String) :
    Except AppError String :=
  (validatePath fsm allowedDirs filePath).bind fun _ =>
    match fsm.fileContent filePath with
    | some content => .ok content
    | none => .error (fsError ("Failed to read file: " ++ filePath) "READ_ERROR")

/-! ### Session registry (`src/services/SessionManager.ts`) -/

/-- The registry state: the `sessions` map plus the shared language-server
registry the manager drives. -/
structure SMState where
  sessions : List (String × EditSession)
  lsp : LSPState
deriving DecidableEq, Repr

/-- `MAX_HISTORY_SIZE`. -/
def MAX_HISTORY_SIZE : Nat := 100

/-- `SessionManager.createInitialState`. -/
def createInitialState (now : Nat) : SessionState :=
  { editHistory := { operations := [], currentIndex := -1, canUndo := false, canRedo := false },
    validationState := { lastChecked := now, diagnostics := [], isValid := true, inProgress := false },
    languageServerState := { connected := false },
    lastModified := now, isSaving := false, isDirty := false }

/-- `SessionManager.getSession`: lookup or `SESSION_NOT_FOUND`; touches
`lastActivity` and writes the session back. -/
def getSession (st : SMState) (sessionId : String) (now : Nat) :
    Except AppError (EditSession × SMState) :=
  match mapGet st.sessions sessionId with
  | none => .error (sessionError ("Session not found: " ++ sessionId) "NOT_FOUND")
  | some session =>
      let touched := { session with lastActivity := now }
      .ok (touched, { st with sessions := mapSet st.sessions sessionId touched })

/-- `SessionManager.updateSession`: merge `changes` over the session,
forcing `id` back and touching `lastActivity`.  The partial-record merge
is modelled as a function over the session. -/
def updateSession (st : SMState) (sessionId : String)
    (changes : EditSession → EditSession) (now : Nat) : Except AppError SMState :=
  (getSession st sessionId now).map fun p =>
    let updatedSession := { changes p.1 with id := sessionId, lastActivity := now }
    { p.2 with sessions := mapSet p.2.sessions sessionId updatedSession }

/-- `SessionManager.closeSession`: resolve (or `SESSION_NOT_FOUND`), then
delete from the map. -/
def closeSession (st : SMState) (sessionId : String) (now : Nat) :
    Except AppError SMState :=
  (getSession st sessionId now).map fun p =>
    { p.2 with sessions := mapDelete p.2.sessions sessionId }

/-- `SessionManager.createSession` (the current version, with the
language-server bring-up): validate the path, require existence, read the
content, build the version-1 document and the fresh session, start the
language server (`LSP_SERVER_EXISTS` on a duplicate), mark it connected,
and only then register the session.  `freshId` stands for the `uuidv4()`
draw (collision-free by assumption); `now` for `Date.now()`.  The
`server.initialize()` round trip is external I/O. -/
def createSession (fsm : FSModel) (allowedDirs : List String) (st : SMState)
    (filePath languageId freshId : String) (now : Nat) :
    Except AppError (EditSession × SMState) :=
  match validatePath fsm allowedDirs filePath with
  | .error e => .error e
  | .ok validatedPath =>
  match fsExists fsm allowedDirs validatedPath with
  | .error e => .error e
  | .ok false => .error (sessionError ("File does not exist: " ++ filePath) "FILE_NOT_FOUND")
  | .ok true =>
  match fsReadFile fsm allowedDirs validatedPath with
  | .error e => .error e
  | .ok content =>
    let document : TextDocument := ⟨validatedPath, languageId, 1, content⟩
    let session : EditSession :=
      { id := freshId, filePath := validatedPath, document := document,
        languageId := languageId, createdAt := now, lastActivity := now,
        state := createInitialState now }
    match startServer st.lsp languageId with
    | .error e => .error e
    | .ok lsp1 =>
      let session := { session with state := { session.state with
          languageServerState := { connected := true } } }
      .ok (session, { st with lsp := lsp1, sessions := mapSet st.sessions freshId session })

/-- The history transformation inside `SessionManager.recordEdit`:
truncate the redo branch when the cursor is not at the end, append, cap
at `MAX_HISTORY_SIZE` (keep the most recent), move the cursor to the end,
clear `canRedo`. -/
def recordHist (history : EditHistory) (operation : EditOperationState) : EditHistory :=
  let ops0 :=
    if history.currentIndex < (history.operations.length : Int) - 1 then
      history.operations.take (history.currentIndex + 1).toNat
    else history.operations
  let ops1 := ops0 ++ [operation]
  let ops2 :=
    if ops1.length > MAX_HISTORY_SIZE then ops1.drop (ops1.length - MAX_HISTORY_SIZE)
    else ops1
  { operations := ops2, currentIndex := (ops2.length : Int) - 1,
    canUndo := decide ((ops2.length : Int) - 1 ≥ 0), canRedo := false }

/-- The cursor move inside `SessionManager.undo`. -/
def undoHist (history : EditHistory) : EditHistory :=
  { history with
    currentIndex := history.currentIndex - 1,
    canUndo := decide (history.currentIndex - 1 ≥ 0), canRedo := true }

/-- The cursor move inside `SessionManager.redo`. -/
def redoHist (history : EditHistory) : EditHistory :=
  { history with
    currentIndex := history.currentIndex + 1, canUndo := true,
    canRedo := decide (history.currentIndex + 1 < (history.operations.length : Int) - 1) }

/-- `SessionManager.recordEdit`: apply `recordHist` to the session's
history, mark dirty, store back. -/
def recordEdit (st : SMState) (sessionId : String) (changes : List TextEdit)
    (documentVersion : Nat) (now : Nat) : Except AppError SMState :=
  (getSession st sessionId now).bind fun p =>
    let session := p.1
    let operation : EditOperationState :=
      { timestamp := now, changes := changes, documentVersion := documentVersion }
    let newHistory := recordHist session.state.editHistory operation
    let newState := { session.state with
        editHistory := newHistory, lastModified := now, isDirty := true }
    updateSession p.2 sessionId (fun s => { s with state := newState }) now

/-- `SessionManager.createInverseChanges`: the lossy delete-the-range
inversion. -/
def createInverseChanges (changes : List TextEdit) : List TextEdit :=
  changes.map fun change => { range := change.range, newText := "" }

/-- Out-of-range history access would be `undefined` in JavaScript; the
embedded `undo`/`redo` read through `getD` with this placeholder, which
the history invariant keeps unreachable. -/
def emptyHistoryEntry : EditOperationState := { timestamp := 0, changes := [], documentVersion := 0 }

/-- `SessionManager.undo`: `false` when `canUndo` is off; otherwise apply
the inverse of the cursor's operation, bump the document version, move
the cursor left, set `canRedo`. -/
def undo (st : SMState) (sessionId : String) (now : Nat) :
    Except AppError (Bool × SMState) :=
  (getSession st sessionId now).bind fun p =>
    let session := p.1
    let history := session.state.editHistory
    if !history.canUndo then .ok (false, p.2)
    else
      let operation := history.operations.getD history.currentIndex.toNat emptyHistoryEntry
      let inverseChanges := createInverseChanges operation.changes
      match applyEdits session.document inverseChanges with
      | none => .error overlappingEditError
      | some newContent =>
        let newVersion := session.document.version + 1
        let updatedDoc : TextDocument :=
          ⟨session.document.uri, session.languageId, newVersion, newContent⟩
        let newHistory := undoHist history
        let newSessionState := { session.state with
            editHistory := newHistory, lastModified := now, isDirty := true }
        (updateSession p.2 sessionId
            (fun s => { s with document := updatedDoc, state := newSessionState }) now).map
          fun st2 => (true, st2)

/-- `SessionManager.redo`: `false` when `canRedo` is off; otherwise
re-apply the operation right of the cursor and move the cursor right. -/
def redo (st : SMState) (sessionId : String) (now : Nat) :
    Except AppError (Bool × SMState) :=
  (getSession st sessionId now).bind fun p =>
    let session := p.1
    let history := session.state.editHistory
    if !history.canRedo then .ok (false, p.2)
    else
      let operation := history.operations.getD (history.currentIndex + 1).toNat emptyHistoryEntry
      match applyEdits session.document operation.changes with
      | none => .error overlappingEditError
      | some newContent =>
        let newVersion := session.document.version + 1
        let updatedDoc : TextDocument :=
          ⟨session.document.uri, session.languageId, newVersion, newContent⟩
        let newHistory := redoHist history
        let newSessionState := { session.state with
            editHistory := newHistory, lastModified := now, isDirty := true }
        (updateSession p.2 sessionId
            (fun s => { s with document := updatedDoc, state := newSessionState }) now).map
          fun st2 => (true, st2)

/-! ### Edit pipeline (`src/services/EditOperationManager.ts`, current version) -/

/-- Outcome of the `server.validateDocument` await: a fulfilled promise
with the published diagnostics, or a rejection.  `TypeScriptServer
.validateDocument` rejects with the plain `Error('Validation timeout')`
(code `""`) when no diagnostics arrive before its 3000 ms timer
(`src/services/languages/typescript.ts`); other protocol failures reject
with their own errors. -/
inductive ValidationOutcome where
  | diags (diagnostics : List Diagnostic)
  | thrown (e : AppError)
deriving DecidableEq, Repr

/-- `EditResult` (`src/types/editor.ts`): optional fields are `none` when
the source leaves them `undefined`. -/
structure EditResult where
  success : Bool
  diagnostics : List Diagnostic
  changes : Option (List TextEdit) := none
  error : Option AppError := none
deriving DecidableEq, Repr

/-- The `try` block of `EditOperationManager.applyEdit`: resolve the
session, build the `TextEdit`, re-check the operation shape, apply the
edit, commit the bumped snapshot through `updateSession`, acquire the
language server, then await validation (`server.didChange` is a
notification with no modelled state).  The returned state is the
registry state at the moment of return or throw. -/
def applyEditTry (st : SMState) (sessionId : String) (operation : EditOperation)
    (validation : ValidationOutcome) (now : Nat) :
    Except AppError EditResult × SMState :=
  match getSession st sessionId now with
  | .error e => (.error e, st)
  | .ok (session, st1) =>
    let document := session.document
    let languageId := session.languageId
    match createEdit document operation with
    | .error e => (.error e, st1)
    | .ok edit =>
    match validateOperation operation with
    | .error e => (.error e, st1)
    | .ok _ =>
    match applyEdits document [edit] with
    | none => (.error overlappingEditError, st1)
    | some newContent =>
      let newVersion := document.version + 1
      let updatedDoc : TextDocument := ⟨document.uri, languageId, newVersion, newContent⟩
      match updateSession st1 sessionId (fun s => { s with document := updatedDoc }) now with
      | .error e => (.error e, st1)
      | .ok st2 =>
      match getServer st2.lsp languageId with
      | .error e => (.error e, st2)
      | .ok lsp1 =>
        let st3 := { st2 with lsp := lsp1 }
        match validation with
        | .thrown e => (.error e, st3)
        | .diags diagnostics =>
            (.ok { success := diagnostics.length == 0, diagnostics := diagnostics,
                   changes := some [edit], error := none }, st3)

/-- `EditOperationManager.applyEdit`: the `try` body plus its `catch`,
which turns exactly the thrown `Validation timeout` into a structured
`{success: false, diagnostics: [], error: VALIDATION_TIMEOUT}` result and
rethrows everything else. -/
def applyEdit (st : SMState) (sessionId : String) (operation : EditOperation)
    (validation : ValidationOutcome) (now : Nat) :
    Except AppError EditResult × SMState :=
  match applyEditTry st sessionId operation validation now with
  | (.error e, st') =>
      if e.message = "Validation timeout" then
        (.ok { success := false, diagnostics := [],
               error := some ⟨"Validation timeout", "VALIDATION_TIMEOUT"⟩ }, st')
      else (.error e, st')
  | ok => ok

/-! ### Document store (`src/services/DocumentManager.ts`) -/

/-- `DocumentState`. -/
structure DocumentState where
  version : Nat
  isDirty : Bool
  lastModified : Nat
  diagnostics : List Diagnostic
deriving DecidableEq, Repr

/-- The document manager's two maps plus the shared registry. -/
structure DMState where
  documents : List (String × TextDocument)
  documentStates : List (String × DocumentState)
  lsp : LSPState
deriving DecidableEq, Repr

/-- `DocumentManager.applyEdits`: compute the new text against the
current snapshot, store the bumped dirty snapshot, then revalidate —
validation runs on the already-committed state, and its diagnostics are
written back only on fulfillment. -/
def dmApplyEdits (dm : DMState) (uri : String) (edits : List TextEdit)
    (validation : ValidationOutcome) (now : Nat) :
    Except AppError TextDocument × DMState :=
  match mapGet dm.documents uri with
  | none => (.error (documentError "Document not found" "NOT_FOUND"), dm)
  | some document =>
  match mapGet dm.documentStates uri with
  | none => (.error (documentError "Document state not found" "STATE_NOT_FOUND"), dm)
  | some state =>
  match applyEdits document edits with
  | none => (.error overlappingEditError, dm)
  | some newContent =>
    let newVersion := state.version + 1
    let updatedDocument : TextDocument := ⟨uri, document.languageId, newVersion, newContent⟩
    let updatedState := { state with
        version := newVersion, isDirty := true, lastModified := now }
    let dm1 := { dm with
        documents := mapSet dm.documents uri updatedDocument,
        documentStates := mapSet dm.documentStates uri updatedState }
    match getServer dm1.lsp document.languageId with
    | .error e => (.error e, dm1)
    | .ok lsp1 =>
      let dm2 := { dm1 with lsp := lsp1 }
      match validation with
      | .thrown e => (.error e, dm2)
      | .diags diagnostics =>
          let finalState := { updatedState with diagnostics := diagnostics }
          (.ok updatedDocument,
           { dm2 with documentStates := mapSet dm2.documentStates uri finalState })

/-! ### The dead bounds checker (`src/services/Validator.ts`) -/

/-- JavaScript `content.split(sep)` for a one-character separator,
spelled over character lists so that proofs can evaluate it. -/
def jsSplitAux (sep : Char) : List Char → List Char → List String
  | [], acc => [String.mk acc.reverse]
  | c :: rest, acc =>
      if c = sep then String.mk acc.reverse :: jsSplitAux sep rest []
      else jsSplitAux sep rest (c :: acc)

/-- JavaScript `String.prototype.split` with a one-character separator. -/
def jsSplit (s : String) (sep : Char) : List String := jsSplitAux sep s.data []

/-- The `validatePosition` helper of `Validator.validateRanges`; the
`≥ 0` conjuncts are trivial with `Nat` coordinates. -/
def validatePositionInBounds (lines : List String) (lastLine lastLineLength : Nat)
    (range : Range) : Bool :=
  range.start.line ≤ lastLine &&
  range.start.character ≤
    (if range.start.line = lastLine then lastLineLength
     else (lines.getD range.start.line "").length) &&
  range.endPos.line ≤ lastLine &&
  range.endPos.character ≤
    (if range.endPos.line = lastLine then lastLineLength
     else (lines.getD range.endPos.line "").length)

/-- `Validator.validateRanges`: the errors it would append for an
operation against `content`.  No caller in the repository reaches it from
the edit pipeline. -/
def validateRangesErrors (operation : EditOperation) (content : String) : List AppError :=
  let lines := jsSplit content '\n'
  let lastLine := lines.length - 1
  let lastLineLength := (lines.getD lastLine "").length
  let rangeErrs :=
    match operation.range with
    | some range =>
        if !validatePositionInBounds lines lastLine lastLineLength range then
          [⟨"Invalid range: position outside document bounds", "VALIDATION_INVALID_RANGE"⟩]
        else []
    | none => []
  let posErrs :=
    match operation.position with
    | some position =>
        if !validatePositionInBounds lines lastLine lastLineLength ⟨position, position⟩ then
          [⟨"Invalid position: outside document bounds", "VALIDATION_INVALID_POSITION"⟩]
        else []
    | none => []
  rangeErrs ++ posErrs

/-! ### Map lemmas -/

theorem mapGet_mapSet_self {α : Type} (m : List (String × α)) (k : String) (v : α) :
    mapGet (mapSet m k v) k = some v := by
  induction m with
  | nil => simp [mapSet, mapGet]
  | cons p rest ih =>
      obtain ⟨k', v'⟩ := p
      by_cases h : k' = k <;> simp [mapSet, mapGet, h, ih]

theorem mapSet_mapSet {α : Type} (m : List (String × α)) (k : String) (v w : α) :
    mapSet (mapSet m k v) k w = mapSet m k w := by
  induction m with
  | nil => simp [mapSet]
  | cons p rest ih =>
      obtain ⟨k', v'⟩ := p
      by_cases h : k' = k <;> simp [mapSet, h, ih]

theorem mapGet_eq_none_of_not_mem {α : Type} (m : List (String × α)) (k : String)
    (h : k ∉ m.map Prod.fst) : mapGet m k = none := by
  induction m with
  | nil => rfl
  | cons p rest ih =>
      obtain ⟨k', v'⟩ := p
      simp only [List.map_cons, List.mem_cons] at h
      push_neg at h
      simp only [mapGet]
      rw [if_neg (fun hk => h.1 hk.symm), ih h.2]

theorem mapGet_mapDelete_self {α : Type} (m : List (String × α)) (k : String)
    (h : (m.map Prod.fst).Nodup) : mapGet (mapDelete m k) k = none := by
  induction m with
  | nil => simp [mapDelete, mapGet]
  | cons p rest ih =>
      obtain ⟨k', v'⟩ := p
      simp only [List.map_cons, List.nodup_cons] at h
      by_cases hk : k' = k
      · subst hk
        simpa [mapDelete] using mapGet_eq_none_of_not_mem rest k' h.1
      · simp [mapDelete, mapGet, hk, ih h.2]

theorem mapSet_keys {α : Type} (m : List (String × α)) (k : String) (v w : α)
    (h : mapGet m k = some w) :
    (mapSet m k v).map Prod.fst = m.map Prod.fst := by
  induction m with
  | nil => simp [mapGet] at h
  | cons p rest ih =>
      obtain ⟨k', v'⟩ := p
      by_cases hk : k' = k
      · simp [mapSet, hk]
      · simp only [mapGet, if_neg hk] at h
        simp [mapSet, hk, ih h]

/-! ### Error-message discrimination

The `catch` of `applyEdit` keys on the exact message `Validation
timeout`; none of the pipeline's other throw sites can produce it. -/

theorem sessionNotFound_ne_timeout (s : String) :
    ("Session not found: " ++ s) ≠ "Validation timeout" := by
  intro h
  have h2 := congrArg String.length h
  rw [String.length_append] at h2
  have e1 : ("Session not found: ").length = 19 := rfl
  have e2 : ("Validation timeout").length = 18 := rfl
  omega

theorem unsupportedOp_ne_timeout (s : String) :
    ("Unsupported operation type: " ++ s) ≠ "Validation timeout" := by
  intro h
  have h2 := congrArg String.length h
  rw [String.length_append] at h2
  have e1 : ("Unsupported operation type: ").length = 28 := rfl
  have e2 : ("Validation timeout").length = 18 := rfl
  omega

theorem noConfig_ne_timeout (s : String) :
    ("No configuration found for " ++ s) ≠ "Validation timeout" := by
  intro h
  have h2 := congrArg String.length h
  rw [String.length_append] at h2
  have e1 : ("No configuration found for ").length = 27 := rfl
  have e2 : ("Validation timeout").length = 18 := rfl
  omega

theorem serverExists_ne_timeout (s : String) :
    ("Server already running for " ++ s) ≠ "Validation timeout" := by
  intro h
  have h2 := congrArg String.length h
  rw [String.length_append] at h2
  have e1 : ("Server already running for ").length = 27 := rfl
  have e2 : ("Validation timeout").length = 18 := rfl
  omega

/-- Every error `createEdit` throws has a message other than
`Validation timeout`. -/
theorem createEdit_error_message (doc : TextDocument) (op : EditOperation) (e : AppError)
    (h : createEdit doc op = .error e) : e.message ≠ "Validation timeout" := by
  obtain ⟨ty, cnt, pos, rng⟩ := op
  cases ty <;> simp only [createEdit] at h
  case insert =>
    split at h
    · exact absurd h (by simp)
    · simp only [editError, Except.error.injEq] at h
      subst h
      decide
  case delete =>
    split at h
    · exact absurd h (by simp)
    · simp only [editError, Except.error.injEq] at h
      subst h
      decide
  case replace =>
    split at h
    · exact absurd h (by simp)
    · simp only [editError, Except.error.injEq] at h
      subst h
      decide
  all_goals
    simp only [editError, Except.error.injEq] at h
  all_goals
    subst h
  all_goals
    exact unsupportedOp_ne_timeout _

/-- Every error `validateOperation` throws has a message other than
`Validation timeout`. -/
theorem validateOperation_error_message (op : EditOperation) (e : AppError)
    (h : validateOperation op = .error e) : e.message ≠ "Validation timeout" := by
  unfold validateOperation at h
  split at h
  · simp only [editError, Except.error.injEq] at h
    subst h
    decide
  · split at h
    · simp only [editError, Except.error.injEq] at h
      subst h
      decide
    · split at h
      · simp only [editError, Except.error.injEq] at h
        subst h
        decide
      · exact absurd h (by simp)

/-- Every error `getServer` throws has a message other than
`Validation timeout`. -/
theorem getServer_error_message (lsp : LSPState) (language : String) (e : AppError)
    (h : getServer lsp language = .error e) : e.message ≠ "Validation timeout" := by
  unfold getServer startServer at h
  by_cases h1 : lsp.servers.contains language = true
  · rw [if_pos h1] at h
    exact absurd h (by simp)
  · rw [if_neg h1, if_neg h1] at h
    by_cases h2 : lsp.configs.contains language = true
    · rw [if_pos h2] at h
      exact absurd h (by simp)
    · rw [if_neg h2] at h
      simp only [lspError, Except.error.injEq] at h
      subst h
      exact noConfig_ne_timeout _

/-! ### The committed session shape -/

/-- The session record as `applyEdit` stores it back: the bumped snapshot
committed through `updateSession` before validation resolves. -/
def committedSession (session : EditSession) (sid : String) (newContent : String)
    (now : Nat) : EditSession :=
  { session with
    id := sid, lastActivity := now,
    document := ⟨session.document.uri, session.languageId,
                 session.document.version + 1, newContent⟩ }

/-- The registry state after `applyEdit` commits. -/
def committedState (st : SMState) (sid : String) (session : EditSession)
    (newContent : String) (now : Nat) (lsp1 : LSPState) : SMState :=
  { sessions := mapSet st.sessions sid (committedSession session sid newContent now),
    lsp := lsp1 }

/-- Master characterization of every `applyEdit` call that resolves to a
result (does not throw): the pipeline stages all succeeded, the bumped
snapshot is committed in the returned state, and the result is either the
diagnostics-driven one or the structured `VALIDATION_TIMEOUT` failure. -/
theorem applyEdit_ok_commit (st : SMState) (sid : String) (op : EditOperation)
    (val : ValidationOutcome) (now : Nat) (r : EditResult) (st' : SMState)
    (h : applyEdit st sid op val now = (.ok r, st')) :
    ∃ session edit newContent lsp1,
      mapGet st.sessions sid = some session ∧
      createEdit session.document op = .ok edit ∧
      validateOperation op = .ok () ∧
      applyEdits session.document [edit] = some newContent ∧
      getServer st.lsp session.languageId = .ok lsp1 ∧
      st' = committedState st sid session newContent now lsp1 ∧
      ((∃ ds, val = .diags ds ∧
          r = { success := ds.length == 0, diagnostics := ds,
                changes := some [edit], error := none }) ∨
       (∃ e, val = .thrown e ∧ e.message = "Validation timeout" ∧
          r = { success := false, diagnostics := [], changes := none,
                error := some ⟨"Validation timeout", "VALIDATION_TIMEOUT"⟩ })) := by
  unfold applyEdit applyEditTry updateSession getSession at h
  cases hget : mapGet st.sessions sid with
  | none =>
      simp only [hget, sessionError] at h
      rw [if_neg (sessionNotFound_ne_timeout sid)] at h
      simp at h
  | some session =>
      simp only [hget] at h
      cases hce : createEdit session.document op with
      | error e =>
          simp only [hce] at h
          rw [if_neg (createEdit_error_message _ _ _ hce)] at h
          simp at h
      | ok edit =>
          simp only [hce] at h
          cases hvo : validateOperation op with
          | error e =>
              simp only [hvo] at h
              rw [if_neg (validateOperation_error_message _ _ hvo)] at h
              simp at h
          | ok u =>
              cases u
              simp only [hvo] at h
              cases hae : applyEdits session.document [edit] with
              | none =>
                  simp only [hae] at h
                  rw [if_neg (show overlappingEditError.message ≠ "Validation timeout" from by decide)] at h
                  simp at h
              | some newContent =>
                  simp only [hae, mapGet_mapSet_self, Except.map, mapSet_mapSet] at h
                  cases hgs : getServer st.lsp session.languageId with
                  | error e =>
                      simp only [hgs] at h
                      rw [if_neg (getServer_error_message _ _ _ hgs)] at h
                      simp at h
                  | ok lsp1 =>
                      simp only [hgs] at h
                      cases val with
                      | diags ds =>
                          simp only [Prod.mk.injEq, Except.ok.injEq] at h
                          obtain ⟨hr, hst⟩ := h
                          refine ⟨session, edit, newContent, lsp1, ?_, ?_, ?_, ?_, ?_, ?_, ?_⟩
                          · first | exact hget | rfl
                          · first | exact hce | rfl
                          · first | exact hvo | rfl
                          · first | exact hae | rfl
                          · first | exact hgs | rfl
                          · rw [← hst]
                            unfold committedState committedSession
                            rfl
                          · exact Or.inl ⟨ds, rfl, hr.symm⟩
                      | thrown e =>
                          simp only [] at h
                          by_cases hmsg : e.message = "Validation timeout"
                          · rw [if_pos hmsg] at h
                            simp only [Prod.mk.injEq, Except.ok.injEq] at h
                            obtain ⟨hr, hst⟩ := h
                            refine ⟨session, edit, newContent, lsp1, ?_, ?_, ?_, ?_, ?_, ?_, ?_⟩
                            · first | exact hget | rfl
                            · first | exact hce | rfl
                            · first | exact hvo | rfl
                            · first | exact hae | rfl
                            · first | exact hgs | rfl
                            · rw [← hst]
                              unfold committedState committedSession
                              rfl
                            · exact Or.inr ⟨e, rfl, hmsg, hr.symm⟩
                          · rw [if_neg hmsg] at h
                            simp at h

/-- Forward evaluation of the `try` body once every stage input is known:
the result is decided by the validation outcome alone, and the state is
always the committed one. -/
theorem applyEditTry_forward (st : SMState) (sid : String) (op : EditOperation)
    (val : ValidationOutcome) (now : Nat) (session : EditSession) (edit : TextEdit)
    (newContent : String) (lsp1 : LSPState)
    (hget : mapGet st.sessions sid = some session)
    (hce : createEdit session.document op = .ok edit)
    (hvo : validateOperation op = .ok ())
    (hae : applyEdits session.document [edit] = some newContent)
    (hgs : getServer st.lsp session.languageId = .ok lsp1) :
    applyEditTry st sid op val now =
      ((match val with
        | .diags ds => .ok { success := ds.length == 0, diagnostics := ds,
                             changes := some [edit], error := none }
        | .thrown e => .error e),
       committedState st sid session newContent now lsp1) := by
  unfold applyEditTry updateSession getSession
  simp only [hget, hce, hvo, hae, mapGet_mapSet_self, Except.map, mapSet_mapSet, hgs]
  cases val with
  | diags ds =>
      unfold committedState committedSession
      rfl
  | thrown e =>
      unfold committedState committedSession
      rfl

/-- What a successful `createSession` guarantees: the stored session is
the returned one, keyed by the fresh id, holding the canonical
(symlink-resolved) path, a version-1 snapshot of the read content, an
empty history, and the language server registered. -/
theorem createSession_ok (fsm : FSModel) (allowedDirs : List String) (st : SMState)
    (filePath languageId freshId : String) (now : Nat) (session : EditSession)
    (st1 : SMState)
    (h : createSession fsm allowedDirs st filePath languageId freshId now =
         .ok (session, st1)) :
    session.id = freshId ∧
    mapGet st1.sessions freshId = some session ∧
    session.document.version = 1 ∧
    session.state.editHistory = { operations := [], currentIndex := -1,
                                  canUndo := false, canRedo := false } ∧
    (∃ validatedPath, validatePath fsm allowedDirs filePath = .ok validatedPath ∧
       session.filePath = validatedPath ∧ session.document.uri = validatedPath ∧
       (∃ content, fsReadFile fsm allowedDirs validatedPath = .ok content ∧
          session.document.text = content)) ∧
    st1.lsp.servers.contains languageId = true ∧
    st1.lsp = { st.lsp with servers := st.lsp.servers ++ [languageId] } := by
  unfold createSession at h
  cases hvp : validatePath fsm allowedDirs filePath with
  | error e => simp [hvp] at h
  | ok validatedPath =>
      simp only [hvp] at h
      cases hex : fsExists fsm allowedDirs validatedPath with
      | error e => simp [hex] at h
      | ok b =>
          simp only [hex] at h
          cases b with
          | false => simp at h
          | true =>
              cases hrd : fsReadFile fsm allowedDirs validatedPath with
              | error e => simp [hrd] at h
              | ok content =>
                  simp only [hrd] at h
                  unfold startServer at h
                  by_cases hsrv : st.lsp.servers.contains languageId = true
                  · rw [if_pos hsrv] at h
                    exact absurd h (by simp)
                  · rw [if_neg hsrv] at h
                    by_cases hcfg : st.lsp.configs.contains languageId = true
                    · rw [if_pos hcfg] at h
                      simp only [Except.ok.injEq, Prod.mk.injEq] at h
                      obtain ⟨hsess, hst1⟩ := h
                      subst hsess
                      subst hst1
                      refine ⟨rfl, mapGet_mapSet_self _ _ _, rfl, rfl,
                              ⟨validatedPath, ?_, rfl, rfl, content, ?_, rfl⟩, ?_, rfl⟩
                      · first | exact hvp | rfl
                      · first | exact hrd | rfl
                      · simp
                    · rw [if_neg hcfg] at h
                      exact absurd h (by simp)

deriving instance DecidableEq for Except

/-! ### Concrete fixtures for witnesses and counterexamples -/

/-- A two-line version-1 snapshot. -/
def demoDoc : TextDocument := ⟨"/allowed/a.ts", "typescript", 1, "line0\nline1"⟩

/-- A freshly created session over `demoDoc`. -/
def demoSession : EditSession :=
  { id := "s1", filePath := "/allowed/a.ts", document := demoDoc,
    languageId := "typescript", createdAt := 0, lastActivity := 0,
    state := createInitialState 0 }

/-- Registry with the typescript server running. -/
def demoLsp : LSPState := { servers := ["typescript"], configs := DEFAULT_SERVER_CONFIGS }

/-- One-session manager state. -/
def demoState : SMState := { sessions := [("s1", demoSession)], lsp := demoLsp }

/-- A well-formed insert at the top of the file. -/
def insOp : EditOperation :=
  { type := .insert, content := some "x", position := some ⟨0, 0⟩ }

/-- A warning-severity diagnostic (severity 2, not an error). -/
def warnDiag : Diagnostic :=
  { range := ⟨⟨0, 0⟩, ⟨0, 1⟩⟩, severity := some 2, message := "unused variable" }

/-- Abstract disk for the session-creation scenarios: `/allowed/Button.tsx`
exists; `/allowed/missing.ts` does not (realpath rejects); `/allowed/link.ts`
is a symlink whose target escapes the allow-list. -/
def demoFS : FSModel :=
  { resolve := fun p => p,
    realpath := fun p =>
      if p = "/allowed/Button.tsx" then some "/allowed/Button.tsx"
      else if p = "/allowed/link.ts" then some "/outside/real.ts"
      else none,
    accessOk := fun p => p = "/allowed/Button.tsx",
    fileContent := fun p =>
      if p = "/allowed/Button.tsx" then some "export const Button = () => null;"
      else none }

/-- Session manager with no sessions and no running servers. -/
def emptyState : SMState :=
  { sessions := [], lsp := { servers := [], configs := DEFAULT_SERVER_CONFIGS } }

/-! ### C1 -/

/-- C1 counterexample.  The claim says `success` is true iff the
diagnostics hold no error-severity entry, warnings notwithstanding.  On a
resolved `applyEdit` whose validation publishes one warning-severity
diagnostic (severity 2), the code's `success = diagnostics.length === 0`
yields `success = false` even though no error-severity entry exists —
refuting the claim at this input. -/
theorem C1_counterexample :
    (applyEdit demoState "s1" insOp (.diags [warnDiag]) 5).1 =
      .ok { success := false, diagnostics := [warnDiag],
            changes := some [⟨⟨⟨0, 0⟩, ⟨0, 0⟩⟩, "x"⟩], error := none } ∧
    [warnDiag].any (fun d => d.severity == some 1) = false := by
  exact ⟨by decide, by decide⟩

/-- C1 (amended): for every `applyEdit` call that resolves to a result,
`success` is true iff the result's diagnostics list is empty and no error
object is attached: any diagnostic — error, warning or information — and
also the structured validation-timeout failure make `success` false. -/
theorem C1_success_iff_no_diagnostics (st : SMState) (sid : String)
    (op : EditOperation) (val : ValidationOutcome) (now : Nat) (r : EditResult)
    (st' : SMState) (h : applyEdit st sid op val now = (.ok r, st')) :
    r.success = true ↔ (r.diagnostics = [] ∧ r.error = none) := by
  obtain ⟨_, _, _, _, _, _, _, _, _, _, hcase⟩ :=
    applyEdit_ok_commit st sid op val now r st' h
  rcases hcase with ⟨ds, _, hr⟩ | ⟨e, _, _, hr⟩ <;> subst hr <;> simp

/-- Witness for C1: at a concrete resolved call with empty diagnostics the
amended equivalence holds with `success = true`. -/
theorem C1_success_iff_no_diagnostics_witness :
    ({ success := true, diagnostics := [], changes := some [⟨⟨⟨0, 0⟩, ⟨0, 0⟩⟩, "x"⟩],
       error := none } : EditResult).success = true ↔
      (({ success := true, diagnostics := [], changes := some [⟨⟨⟨0, 0⟩, ⟨0, 0⟩⟩, "x"⟩],
          error := none } : EditResult).diagnostics = [] ∧
       ({ success := true, diagnostics := [], changes := some [⟨⟨⟨0, 0⟩, ⟨0, 0⟩⟩, "x"⟩],
          error := none } : EditResult).error = none) :=
  C1_success_iff_no_diagnostics demoState "s1" insOp (.diags []) 5 _
    { sessions := [("s1", committedSession demoSession "s1" "xline0\nline1" 5)], lsp := demoLsp }
    (by decide)

/-! ### C2 -/

/-- One `applyEdit` call in a sequence: the submitted operation, the
validation outcome the language server produced, and the clock. -/
structure EditStep where
  op : EditOperation
  outcome : ValidationOutcome
  now : Nat

/-- Replay a sequence of `applyEdit` calls on one session, threading the
registry state. -/
def runEdits (sid : String) : SMState → List EditStep → SMState
  | st, [] => st
  | st, step :: rest =>
      runEdits sid (applyEdit st sid step.op step.outcome step.now).2 rest

/-- Every call in the sequence resolved to a result (the "successfully
applied" premise: no call threw). -/
def EditsAllOk (sid : String) : SMState → List EditStep → Prop
  | _, [] => True
  | st, step :: rest =>
      (∃ r, (applyEdit st sid step.op step.outcome step.now).1 = .ok r) ∧
      EditsAllOk sid (applyEdit st sid step.op step.outcome step.now).2 rest

/-- A resolved `applyEdit` stores a fresh snapshot whose version is the
old one plus one; the input state's snapshot value is untouched (the
embedding is functional, mirroring `TextDocument.create` building a new
object). -/
theorem applyEdit_ok_version (st : SMState) (sid : String) (op : EditOperation)
    (val : ValidationOutcome) (now : Nat) (r : EditResult) (st' : SMState)
    (h : applyEdit st sid op val now = (.ok r, st')) :
    ∃ session session', mapGet st.sessions sid = some session ∧
      mapGet st'.sessions sid = some session' ∧
      session'.document.version = session.document.version + 1 ∧
      session'.document ≠ session.document := by
  obtain ⟨session, edit, newContent, lsp1, hget, _, _, _, _, hst, _⟩ :=
    applyEdit_ok_commit st sid op val now r st' h
  refine ⟨session, committedSession session sid newContent now, hget, ?_, rfl, ?_⟩
  · rw [hst]
    exact mapGet_mapSet_self _ _ _
  · intro hd
    have := congrArg TextDocument.version hd
    simp [committedSession] at this

/-- Inductive step sum: `N` resolved calls move the version up by `N`. -/
theorem runEdits_version (sid : String) (steps : List EditStep) :
    ∀ st session, mapGet st.sessions sid = some session →
      EditsAllOk sid st steps →
      ∃ session', mapGet (runEdits sid st steps).sessions sid = some session' ∧
        session'.document.version = session.document.version + steps.length := by
  induction steps with
  | nil =>
      intro st session h _
      exact ⟨session, h, rfl⟩
  | cons step rest ih =>
      intro st session h hok
      obtain ⟨⟨r, hr⟩, hrest⟩ := hok
      rcases happ : applyEdit st sid step.op step.outcome step.now with ⟨res, st2⟩
      rw [happ] at hr
      simp only at hr
      subst hr
      obtain ⟨session₀, session₁, hget₀, hget₁, hv, _⟩ :=
        applyEdit_ok_version st sid step.op step.outcome step.now r st2 happ
      rw [h] at hget₀
      injection hget₀ with hsess
      subst hsess
      rw [happ] at hrest
      simp only at hrest
      have hrun : runEdits sid st (step :: rest) = runEdits sid st2 rest := by
        show runEdits sid (applyEdit st sid step.op step.outcome step.now).2 rest =
             runEdits sid st2 rest
        rw [happ]
      rw [hrun]
      obtain ⟨session', h1, h2⟩ := ih st2 session₁ hget₁ hrest
      refine ⟨session', h1, ?_⟩
      rw [h2, hv, List.length_cons]
      omega

/-- C2: a session is created with a version-1 snapshot, and after any
sequence of `N` resolved `applyEdit` calls on it the stored snapshot's
version is `1 + N`; each resolved call bumps the version by exactly one
and builds a new snapshot value instead of mutating the old one (see
`applyEdit_ok_version`). -/
theorem C2_version_is_one_plus_edits (fsm : FSModel) (allowedDirs : List String)
    (st0 : SMState) (filePath languageId freshId : String) (now : Nat)
    (session : EditSession) (st1 : SMState) (steps : List EditStep)
    (hcreate : createSession fsm allowedDirs st0 filePath languageId freshId now =
               .ok (session, st1))
    (hok : EditsAllOk freshId st1 steps) :
    session.document.version = 1 ∧
    ∃ session', mapGet (runEdits freshId st1 steps).sessions freshId = some session' ∧
      session'.document.version = 1 + steps.length := by
  obtain ⟨_, hstored, hv1, _⟩ :=
    createSession_ok fsm allowedDirs st0 filePath languageId freshId now session st1 hcreate
  refine ⟨hv1, ?_⟩
  obtain ⟨session', h1, h2⟩ := runEdits_version freshId steps st1 session hstored hok
  exact ⟨session', h1, by rw [h2, hv1]⟩

/-- The session `createSession` builds over the demo disk. -/
def c2session : EditSession :=
  { id := "id1", filePath := "/allowed/Button.tsx",
    document := ⟨"/allowed/Button.tsx", "typescript", 1, "export const Button = () => null;"⟩,
    languageId := "typescript", createdAt := 7, lastActivity := 7,
    state := { createInitialState 7 with languageServerState := { connected := true } } }

/-- The manager state right after that creation. -/
def c2state : SMState :=
  { sessions := [("id1", c2session)],
    lsp := { servers := ["typescript"], configs := DEFAULT_SERVER_CONFIGS } }

/-- Witness for C2: creating a session over the demo disk and applying
one clean insert gives version `1 + 1 = 2`. -/
theorem C2_version_is_one_plus_edits_witness :
    c2session.document.version = 1 ∧
    ∃ session', mapGet (runEdits "id1" c2state [⟨insOp, .diags [], 8⟩]).sessions "id1" =
        some session' ∧ session'.document.version = 1 + 1 :=
  C2_version_is_one_plus_edits demoFS ["/allowed"] emptyState "/allowed/Button.tsx"
    "typescript" "id1" 7 c2session c2state [⟨insOp, .diags [], 8⟩] (by decide)
    ⟨⟨{ success := true, diagnostics := [],
        changes := some [⟨⟨⟨0, 0⟩, ⟨0, 0⟩⟩, "x"⟩], error := none }, by decide⟩, trivial⟩

/-! ### C3 -/

/-- An insert whose position (line 99) lies far past the demo document's
last line (line 1). -/
def oobOp : EditOperation :=
  { type := .insert, content := some "X", position := some ⟨99, 0⟩ }

/-- C3 (code_bug evidence): `applyEdit` runs no bounds check — the only
implementation of the check, `Validator.validateRanges`, is never invoked
on any edit path.  At an insert positioned on line 99 of a two-line
document the call resolves successfully (no `OutOfBoundsPosition` /
`InvalidRange` failure): `TextDocument.offsetAt` clamps the position to
end-of-file, the edit is committed, the version moves from 1 to 2 and the
text changes — while the dead `validateRanges` would have flagged exactly
this input with its out-of-bounds error. -/
theorem C3_out_of_bounds_commits :
    (applyEdit demoState "s1" oobOp (.diags []) 5).1 =
      .ok { success := true, diagnostics := [],
            changes := some [⟨⟨⟨99, 0⟩, ⟨99, 0⟩⟩, "X"⟩], error := none } ∧
    (mapGet (applyEdit demoState "s1" oobOp (.diags []) 5).2.sessions "s1").map
        (fun s => (s.document.version, s.document.text)) = some (2, "line0\nline1X") ∧
    validateRangesErrors oobOp demoDoc.text =
      [⟨"Invalid position: outside document bounds", "VALIDATION_INVALID_POSITION"⟩] := by
  refine ⟨by decide, by decide, by decide⟩

/-! ### C4 -/

/-- C4: when the language-server wait ends in the `Validation timeout`
rejection (the 3000 ms timer of `TypeScriptServer.validateDocument`),
`applyEdit` resolves — it neither throws nor keeps waiting past the timer
— with the structured failure `{success: false, diagnostics: [], error:
{code: VALIDATION_TIMEOUT}}`. -/
theorem C4_timeout_structured_result (st : SMState) (sid : String)
    (op : EditOperation) (now : Nat) (session : EditSession) (edit : TextEdit)
    (newContent : String) (lsp1 : LSPState)
    (hget : mapGet st.sessions sid = some session)
    (hce : createEdit session.document op = .ok edit)
    (hvo : validateOperation op = .ok ())
    (hae : applyEdits session.document [edit] = some newContent)
    (hgs : getServer st.lsp session.languageId = .ok lsp1) :
    (applyEdit st sid op (.thrown ⟨"Validation timeout", ""⟩) now).1 =
      .ok { success := false, diagnostics := [],
            error := some ⟨"Validation timeout", "VALIDATION_TIMEOUT"⟩ } := by
  unfold applyEdit
  rw [applyEditTry_forward st sid op (.thrown ⟨"Validation timeout", ""⟩) now
      session edit newContent lsp1 hget hce hvo hae hgs]
  rfl

/-- Witness for C4 at the demo session. -/
theorem C4_timeout_structured_result_witness :
    (applyEdit demoState "s1" insOp (.thrown ⟨"Validation timeout", ""⟩) 5).1 =
      .ok { success := false, diagnostics := [],
            error := some ⟨"Validation timeout", "VALIDATION_TIMEOUT"⟩ } :=
  C4_timeout_structured_result demoState "s1" insOp 5 demoSession
    ⟨⟨⟨0, 0⟩, ⟨0, 0⟩⟩, "x"⟩ "xline0\nline1" demoLsp
    (by decide) (by decide) (by decide) (by decide) (by decide)

/-! ### C5 -/

/-- The claim's per-type missing-fields predicate: an insert misses its
fields when it has no content or neither position nor range; a delete
when it has no range; a replace when it misses range or content; any
other operation type is always ill-shaped. -/
def fieldsMissing (op : EditOperation) : Prop :=
  match op.type with
  | .insert => op.content = none ∨ (op.position = none ∧ op.range = none)
  | .delete => op.range = none
  | .replace => op.range = none ∨ op.content = none
  | _ => True

/-- A `TextEdit` comes out of `createEdit` only for the three supported
types with their required fields (insert in fact demands `position`
specifically, which implies the claim's `position or range`). -/
theorem createEdit_ok_shape (doc : TextDocument) (op : EditOperation) (edit : TextEdit)
    (h : createEdit doc op = .ok edit) :
    (op.type = .insert ∧ contentTruthy op.content = true ∧ op.position.isSome = true) ∨
    (op.type = .delete ∧ op.range.isSome = true) ∨
    (op.type = .replace ∧ op.range.isSome = true ∧ contentTruthy op.content = true) := by
  obtain ⟨ty, cnt, pos, rng⟩ := op
  cases ty <;> simp only [createEdit] at h
  case insert =>
    split at h
    · rename_i position heq
      exact Or.inl ⟨rfl, heq, rfl⟩
    · exact absurd h (by simp)
  case delete =>
    split at h
    · exact Or.inr (Or.inl ⟨rfl, rfl⟩)
    · exact absurd h (by simp)
  case replace =>
    split at h
    · rename_i range heq
      exact Or.inr (Or.inr ⟨rfl, rfl, heq⟩)
    · exact absurd h (by simp)
  all_goals exact absurd h (by simp)

/-- A missing-fields operation makes `createEdit` throw an
`EDIT_INVALID_OPERATION` / `EDIT_UNSUPPORTED_OPERATION` error. -/
theorem createEdit_missing_rejected (doc : TextDocument) (op : EditOperation)
    (h : fieldsMissing op) :
    ∃ e, createEdit doc op = .error e ∧
      (e.code = "EDIT_INVALID_OPERATION" ∨ e.code = "EDIT_UNSUPPORTED_OPERATION") := by
  obtain ⟨ty, cnt, pos, rng⟩ := op
  cases ty <;> simp only [fieldsMissing] at h <;> simp only [createEdit]
  case insert =>
    rcases h with hc | ⟨hp, hr⟩
    · subst hc
      cases pos <;> exact ⟨_, rfl, Or.inl rfl⟩
    · subst hp
      cases hct : contentTruthy cnt <;> exact ⟨_, rfl, Or.inl rfl⟩
  case delete =>
    subst h
    exact ⟨_, rfl, Or.inl rfl⟩
  case replace =>
    rcases h with hr | hc
    · subst hr
      cases hct : contentTruthy cnt <;> exact ⟨_, rfl, Or.inl rfl⟩
    · subst hc
      cases rng <;> exact ⟨_, rfl, Or.inl rfl⟩
  all_goals exact ⟨_, rfl, Or.inr rfl⟩

/-- Forward evaluation when `createEdit` rejects: the call throws that
error with only the `lastActivity` touch applied — the snapshot is not
read past `getSession` and not modified. -/
theorem applyEditTry_createEdit_error (st : SMState) (sid : String)
    (op : EditOperation) (val : ValidationOutcome) (now : Nat)
    (session : EditSession) (e : AppError)
    (hget : mapGet st.sessions sid = some session)
    (hce : createEdit session.document op = .error e) :
    applyEditTry st sid op val now =
      (.error e,
       { st with sessions := mapSet st.sessions sid { session with lastActivity := now } }) := by
  unfold applyEditTry getSession
  simp only [hget, hce]

/-- C5: on a live session, a resolved `applyEdit` implies the operation
carried the claim's required fields for its type (with the type among
insert/delete/replace), and an operation of another type or with missing
fields is rejected with an `EDIT_INVALID_OPERATION` /
`EDIT_UNSUPPORTED_OPERATION` error before the snapshot is read or
modified: the stored document is exactly the one from before the call. -/
theorem C5_operation_shape_gate (st : SMState) (sid : String) (op : EditOperation)
    (val : ValidationOutcome) (now : Nat) (session : EditSession)
    (hsess : mapGet st.sessions sid = some session) :
    (∀ r st', applyEdit st sid op val now = (.ok r, st') →
       (op.type = .insert → contentTruthy op.content = true ∧
          (op.position.isSome = true ∨ op.range.isSome = true)) ∧
       (op.type = .delete → op.range.isSome = true) ∧
       (op.type = .replace → op.range.isSome = true ∧ contentTruthy op.content = true) ∧
       (op.type = .insert ∨ op.type = .delete ∨ op.type = .replace)) ∧
    (fieldsMissing op →
       ∃ e, (applyEdit st sid op val now).1 = .error e ∧
         (e.code = "EDIT_INVALID_OPERATION" ∨ e.code = "EDIT_UNSUPPORTED_OPERATION") ∧
         ∃ session', mapGet (applyEdit st sid op val now).2.sessions sid = some session' ∧
           session'.document = session.document) := by
  constructor
  · intro r st' h
    obtain ⟨session₀, edit, _, _, hget₀, hce, _, _, _, _, _⟩ :=
      applyEdit_ok_commit st sid op val now r st' h
    rcases createEdit_ok_shape session₀.document op edit hce with
      ⟨ht, hc, hp⟩ | ⟨ht, hr⟩ | ⟨ht, hr, hc⟩
    · refine ⟨fun _ => ⟨hc, Or.inl hp⟩, ?_, ?_, Or.inl ht⟩
      · intro hd
        rw [ht] at hd
        exact absurd hd (by decide)
      · intro hd
        rw [ht] at hd
        exact absurd hd (by decide)
    · refine ⟨?_, fun _ => hr, ?_, Or.inr (Or.inl ht)⟩
      · intro hd
        rw [ht] at hd
        exact absurd hd (by decide)
      · intro hd
        rw [ht] at hd
        exact absurd hd (by decide)
    · refine ⟨?_, ?_, fun _ => ⟨hr, hc⟩, Or.inr (Or.inr ht)⟩
      · intro hd
        rw [ht] at hd
        exact absurd hd (by decide)
      · intro hd
        rw [ht] at hd
        exact absurd hd (by decide)
  · intro hmiss
    obtain ⟨e, hce, hcode⟩ := createEdit_missing_rejected session.document op hmiss
    have htry := applyEditTry_createEdit_error st sid op val now session e hsess hce
    have hne : e.message ≠ "Validation timeout" := createEdit_error_message _ _ _ hce
    refine ⟨e, ?_, hcode, ⟨{ session with lastActivity := now }, ?_, rfl⟩⟩
    · unfold applyEdit
      rw [htry]
      simp only [hne, if_false]
    · unfold applyEdit
      rw [htry]
      simp only [hne, if_false]
      exact mapGet_mapSet_self _ _ _

/-- Witness for C5: a delete without a range on the demo session is
rejected as `EDIT_INVALID_OPERATION` and the stored snapshot is exactly
the one from before the call. -/
theorem C5_operation_shape_gate_witness :
    ∃ e, (applyEdit demoState "s1" { type := .delete } (.diags []) 5).1 = .error e ∧
      (e.code = "EDIT_INVALID_OPERATION" ∨ e.code = "EDIT_UNSUPPORTED_OPERATION") ∧
      ∃ session', mapGet (applyEdit demoState "s1" { type := .delete }
          (.diags []) 5).2.sessions "s1" = some session' ∧
        session'.document = demoSession.document :=
  (C5_operation_shape_gate demoState "s1" { type := .delete }
      (.diags []) 5 demoSession (by decide)).2 rfl

/-! ### C6 -/

/-- C6 counterexample.  The claim says an allow-listed path whose file
does not exist fails with a FileNotFound-kind error.  On the demo disk
`/allowed/missing.ts` is allow-listed but absent: `fs.realpath` rejects
inside `validatePath`'s `try`, whose `catch` rethrows the wrapped
`FS_VALIDATION_ERROR` — so `createSession` fails with the path-validation
kind, never reaching its `FILE_NOT_FOUND` branch. -/
theorem C6_counterexample :
    createSession demoFS ["/allowed"] emptyState "/allowed/missing.ts" "typescript"
        "id1" 7 =
      .error ⟨"Failed to validate path", "FS_VALIDATION_ERROR"⟩ := by decide

/-- How `validatePath` classifies its failures: outside the allow-list is
`FS_INVALID_PATH`; a failing `realpath` (missing file) and a symlink
target escaping the roots both surface as the wrapped
`FS_VALIDATION_ERROR`. -/
theorem validatePath_eval (fsm : FSModel) (allowedDirs : List String) (p : String) :
    ((allowedDirs.any fun dir =>
        strStartsWith (fsm.resolve (fsm.resolve p)) (fsm.resolve dir)) = false →
      validatePath fsm allowedDirs p =
        .error (fsError "Path is outside allowed directories" "INVALID_PATH")) ∧
    ((allowedDirs.any fun dir =>
        strStartsWith (fsm.resolve (fsm.resolve p)) (fsm.resolve dir)) = true →
      fsm.realpath (fsm.resolve p) = none →
      validatePath fsm allowedDirs p =
        .error (fsError "Failed to validate path" "VALIDATION_ERROR")) ∧
    (∀ realPath,
      (allowedDirs.any fun dir =>
        strStartsWith (fsm.resolve (fsm.resolve p)) (fsm.resolve dir)) = true →
      fsm.realpath (fsm.resolve p) = some realPath →
      (allowedDirs.any fun dir =>
        strStartsWith (fsm.resolve realPath) (fsm.resolve dir)) = false →
      validatePath fsm allowedDirs p =
        .error (fsError "Failed to validate path" "VALIDATION_ERROR")) ∧
    (∀ validatedPath, validatePath fsm allowedDirs p = .ok validatedPath →
      fsm.realpath (fsm.resolve p) = some validatedPath) := by
  refine ⟨?_, ?_, ?_, ?_⟩
  · intro houtside
    unfold validatePath isInAllowedDirs
    simp only [houtside, Bool.false_eq_true, if_false]
  · intro hinside hrp
    unfold validatePath isInAllowedDirs
    simp only [hinside, if_true, hrp]
  · intro realPath hinside hrp hescape
    unfold validatePath isInAllowedDirs
    simp only [hinside, if_true, hrp, hescape, Bool.false_eq_true, if_false]
  · intro validatedPath h
    unfold validatePath isInAllowedDirs at h
    by_cases hin : (allowedDirs.any fun dir =>
        strStartsWith (fsm.resolve (fsm.resolve p)) (fsm.resolve dir)) = true
    · simp only [hin, if_true] at h
      cases hrp : fsm.realpath (fsm.resolve p) with
      | none => simp [hrp] at h
      | some realPath =>
          simp only [hrp] at h
          by_cases hesc : (allowedDirs.any fun dir =>
              strStartsWith (fsm.resolve realPath) (fsm.resolve dir)) = true
          · simp only [hesc, if_true, Except.ok.injEq] at h
            rw [h]
          · simp [hesc] at h
    · simp [hin] at h

/-- A `validatePath` failure aborts `createSession` with the same error. -/
theorem createSession_validatePath_error (fsm : FSModel) (allowedDirs : List String)
    (st : SMState) (filePath languageId freshId : String) (now : Nat) (e : AppError)
    (h : validatePath fsm allowedDirs filePath = .error e) :
    createSession fsm allowedDirs st filePath languageId freshId now = .error e := by
  unfold createSession
  simp only [h]

/-- C6 (amended): `createSession` rejects a path outside the allowed
roots with `FS_INVALID_PATH` (PathNotAllowed-kind); an allow-listed path
whose file does not exist, and a symlink escaping the roots, both fail
with the wrapped `FS_VALIDATION_ERROR` — not with a FileNotFound-kind
error; on success the stored session's `filePath` is the canonical
symlink-resolved path, the session is registered under the freshly drawn
id (unique by the `uuidv4` assumption), and its history is empty. -/
theorem C6_create_session_errors (fsm : FSModel) (allowedDirs : List String)
    (st : SMState) (filePath languageId freshId : String) (now : Nat) :
    ((allowedDirs.any fun dir =>
        strStartsWith (fsm.resolve (fsm.resolve filePath)) (fsm.resolve dir)) = false →
      createSession fsm allowedDirs st filePath languageId freshId now =
        .error (fsError "Path is outside allowed directories" "INVALID_PATH")) ∧
    ((allowedDirs.any fun dir =>
        strStartsWith (fsm.resolve (fsm.resolve filePath)) (fsm.resolve dir)) = true →
      fsm.realpath (fsm.resolve filePath) = none →
      createSession fsm allowedDirs st filePath languageId freshId now =
        .error (fsError "Failed to validate path" "VALIDATION_ERROR")) ∧
    (∀ realPath,
      (allowedDirs.any fun dir =>
        strStartsWith (fsm.resolve (fsm.resolve filePath)) (fsm.resolve dir)) = true →
      fsm.realpath (fsm.resolve filePath) = some realPath →
      (allowedDirs.any fun dir =>
        strStartsWith (fsm.resolve realPath) (fsm.resolve dir)) = false →
      createSession fsm allowedDirs st filePath languageId freshId now =
        .error (fsError "Failed to validate path" "VALIDATION_ERROR")) ∧
    (∀ session st',
      createSession fsm allowedDirs st filePath languageId freshId now =
        .ok (session, st') →
      session.id = freshId ∧ mapGet st'.sessions freshId = some session ∧
      session.state.editHistory.operations = [] ∧
      session.state.editHistory.currentIndex = -1 ∧
      ∃ realPath, fsm.realpath (fsm.resolve filePath) = some realPath ∧
        session.filePath = realPath) := by
  obtain ⟨hva, hvb, hvc, hvd⟩ := validatePath_eval fsm allowedDirs filePath
  refine ⟨?_, ?_, ?_, ?_⟩
  · intro houtside
    exact createSession_validatePath_error _ _ _ _ _ _ _ _ (hva houtside)
  · intro hinside hrp
    exact createSession_validatePath_error _ _ _ _ _ _ _ _ (hvb hinside hrp)
  · intro realPath hinside hrp hescape
    exact createSession_validatePath_error _ _ _ _ _ _ _ _ (hvc realPath hinside hrp hescape)
  · intro session st' h
    obtain ⟨hid, hstored, _, hhist, ⟨vp, hvp, hfp, _⟩, _⟩ :=
      createSession_ok fsm allowedDirs st filePath languageId freshId now session st' h
    refine ⟨hid, hstored, ?_, ?_, vp, hvd vp hvp, hfp⟩
    · rw [hhist]
    · rw [hhist]

/-- Witness for C6 (amended): the three error scenarios and the success
scenario on the demo disk. -/
theorem C6_create_session_errors_witness :
    createSession demoFS ["/allowed"] emptyState "/etc/passwd" "typescript" "id1" 7 =
      .error (fsError "Path is outside allowed directories" "INVALID_PATH") ∧
    createSession demoFS ["/allowed"] emptyState "/allowed/link.ts" "typescript" "id1" 7 =
      .error (fsError "Failed to validate path" "VALIDATION_ERROR") ∧
    (c2session.id = "id1" ∧ mapGet c2state.sessions "id1" = some c2session ∧
     c2session.state.editHistory.operations = [] ∧
     c2session.state.editHistory.currentIndex = -1 ∧
     ∃ realPath, demoFS.realpath (demoFS.resolve "/allowed/Button.tsx") = some realPath ∧
       c2session.filePath = realPath) :=
  ⟨(C6_create_session_errors demoFS ["/allowed"] emptyState "/etc/passwd" "typescript"
      "id1" 7).1 (by decide),
   (C6_create_session_errors demoFS ["/allowed"] emptyState "/allowed/link.ts" "typescript"
      "id1" 7).2.2.1 "/outside/real.ts" (by decide) (by decide) (by decide),
   (C6_create_session_errors demoFS ["/allowed"] emptyState "/allowed/Button.tsx" "typescript"
      "id1" 7).2.2.2 c2session c2state (by decide)⟩

/-! ### C7 -/

/-- C7: `closeSession` is not idempotent.  With unique session keys (an
invariant of the JavaScript `Map`), a successful close removes the
session from the registry, and both a second `closeSession` and any
`getSession` on the same id fail with `SESSION_NOT_FOUND`. -/
theorem C7_close_not_idempotent (st : SMState) (sid : String) (now1 now2 : Nat)
    (st1 : SMState)
    (hnodup : (st.sessions.map Prod.fst).Nodup)
    (h : closeSession st sid now1 = .ok st1) :
    mapGet st1.sessions sid = none ∧
    closeSession st1 sid now2 =
      .error (sessionError ("Session not found: " ++ sid) "NOT_FOUND") ∧
    getSession st1 sid now2 =
      .error (sessionError ("Session not found: " ++ sid) "NOT_FOUND") := by
  unfold closeSession getSession at h
  cases hget : mapGet st.sessions sid with
  | none => simp [hget, Except.map] at h
  | some session =>
      simp only [hget, Except.map, Except.ok.injEq] at h
      subst h
      have hkeys : ((mapSet st.sessions sid { session with lastActivity := now1 }).map
          Prod.fst).Nodup := by
        rw [mapSet_keys st.sessions sid _ session hget]
        exact hnodup
      have hnone : mapGet (mapDelete (mapSet st.sessions sid
          { session with lastActivity := now1 }) sid) sid = none :=
        mapGet_mapDelete_self _ _ hkeys
      refine ⟨hnone, ?_, ?_⟩
      · unfold closeSession getSession
        simp [hnone, Except.map]
      · unfold getSession
        simp [hnone]

/-- Witness for C7 on the demo registry. -/
theorem C7_close_not_idempotent_witness :
    mapGet (SMState.mk [] demoLsp).sessions "s1" = none ∧
    closeSession (SMState.mk [] demoLsp) "s1" 10 =
      .error (sessionError ("Session not found: " ++ "s1") "NOT_FOUND") ∧
    getSession (SMState.mk [] demoLsp) "s1" 10 =
      .error (sessionError ("Session not found: " ++ "s1") "NOT_FOUND") :=
  C7_close_not_idempotent demoState "s1" 9 10 (SMState.mk [] demoLsp)
    (by decide) (by decide)

/-! ### C8 -/

/-- C8 counterexample.  The claim says the history cursor always points
within the recorded operations, being `-1` only when the history is
empty.  Recording one edit on the fresh demo session and undoing it
leaves `operations.length = 1` with `currentIndex = -1` — a reachable
state the claim excludes. -/
def c8edit : TextEdit := ⟨⟨⟨0, 0⟩, ⟨0, 0⟩⟩, "abc"⟩

/-- The registry state after `recordEdit` then `undo` on the demo
session. -/
def c8run : Except AppError SMState :=
  (recordEdit demoState "s1" [c8edit] 2 10).bind fun st1 =>
    (undo st1 "s1" 11).map Prod.snd

/-- C8 counterexample (see `c8run`): one record followed by one undo
yields a nonempty history whose cursor is `-1`. -/
theorem C8_counterexample :
    (c8run.toOption.bind fun st2 => mapGet st2.sessions "s1").map
        (fun s => (s.state.editHistory.operations.length,
                   s.state.editHistory.currentIndex)) = some (1, -1) := by
  decide

/-- The history invariant the code actually maintains: the cursor stays
in `[-1, #operations)`, the log stays within `MAX_HISTORY_SIZE`, and the
`canUndo`/`canRedo` flags bound the cursor from the matching side. -/
def histInv (h : EditHistory) : Prop :=
  -1 ≤ h.currentIndex ∧ h.currentIndex < (h.operations.length : Int) ∧
  h.operations.length ≤ MAX_HISTORY_SIZE ∧
  (h.canUndo = true → 0 ≤ h.currentIndex) ∧
  (h.canRedo = true → h.currentIndex < (h.operations.length : Int) - 1)

instance (h : EditHistory) : Decidable (histInv h) := by
  unfold histInv
  infer_instance

/-- C8 (amended): the per-session history invariant the code maintains.
The history never exceeds `MAX_HISTORY_SIZE = 100` entries; the cursor
always lies in `[-1, #operations)` — it is `-1` when the history is empty
*or when every recorded operation has been undone* (the state the
original claim excluded, reachable per `C8_counterexample`); recording
while the cursor is not at the end discards the operations after the
cursor (the redo branch) and leaves `canRedo` false.  The invariant holds
initially and is preserved by the history transforms of `recordEdit`,
`undo` and `redo`. -/
theorem C8_history_invariant (h : EditHistory) (op : EditOperationState) (now : Nat) :
    histInv (createInitialState now).editHistory ∧
    (histInv h →
      histInv (recordHist h op) ∧ (recordHist h op).canRedo = false ∧
      (recordHist h op).operations.length ≤ MAX_HISTORY_SIZE ∧
      (h.currentIndex < (h.operations.length : Int) - 1 →
        (recordHist h op).operations =
          h.operations.take (h.currentIndex + 1).toNat ++ [op])) ∧
    (histInv h → h.canUndo = true → histInv (undoHist h)) ∧
    (histInv h → h.canRedo = true → histInv (redoHist h)) := by
  refine ⟨?_, ?_, ?_, ?_⟩
  · exact show histInv ⟨[], -1, false, false⟩ from by decide
  · intro hinv
    obtain ⟨h1, h2, h3, _, _⟩ := hinv
    unfold MAX_HISTORY_SIZE at h3
    unfold recordHist histInv MAX_HISTORY_SIZE
    dsimp only
    by_cases htr : h.currentIndex < (h.operations.length : Int) - 1
    · rw [if_pos htr]
      have hnocap : ¬((h.operations.take (h.currentIndex + 1).toNat ++ [op]).length > 100) := by
        rw [List.length_append, List.length_take]
        simp only [List.length_cons, List.length_nil]
        omega
      rw [if_neg hnocap]
      have hlen : (h.operations.take (h.currentIndex + 1).toNat ++ [op]).length =
          (h.currentIndex + 1).toNat + 1 := by
        rw [List.length_append, List.length_take]
        simp only [List.length_cons, List.length_nil]
        omega
      refine ⟨⟨?_, ?_, ?_, ?_, ?_⟩, rfl, ?_, fun _ => rfl⟩
      · rw [hlen]
        omega
      · rw [hlen]
        omega
      · rw [hlen]
        omega
      · intro hc
        have := of_decide_eq_true hc
        omega
      · intro hc
        exact absurd hc (by decide)
      · rw [hlen]
        omega
    · rw [if_neg htr]
      by_cases hcap : ((h.operations ++ [op]).length > 100)
      · rw [if_pos hcap]
        have hlen : ((h.operations ++ [op]).drop ((h.operations ++ [op]).length - 100)).length
            = 100 := by
          rw [List.length_drop]
          omega
        refine ⟨⟨?_, ?_, ?_, ?_, ?_⟩, rfl, ?_, fun hx => absurd hx htr⟩
        · rw [hlen]
          omega
        · rw [hlen]
          omega
        · rw [hlen]
        · intro hc
          have := of_decide_eq_true hc
          omega
        · intro hc
          exact absurd hc (by decide)
        · rw [hlen]
      · rw [if_neg hcap]
        rw [List.length_append] at hcap
        simp only [List.length_cons, List.length_nil] at hcap
        refine ⟨⟨?_, ?_, ?_, ?_, ?_⟩, rfl, ?_, fun hx => absurd hx htr⟩
        · omega
        · omega
        · rw [List.length_append]
          simp only [List.length_cons, List.length_nil]
          omega
        · intro hc
          have := of_decide_eq_true hc
          omega
        · intro hc
          exact absurd hc (by decide)
        · rw [List.length_append]
          simp only [List.length_cons, List.length_nil]
          omega
  · intro hinv hc
    obtain ⟨h1, h2, h3, h4, _⟩ := hinv
    have hidx := h4 hc
    unfold undoHist histInv
    refine ⟨?_, ?_, ?_, ?_, ?_⟩
    · show -1 ≤ h.currentIndex - 1
      omega
    · show h.currentIndex - 1 < (h.operations.length : Int)
      omega
    · exact h3
    · intro hcu
      have := of_decide_eq_true
        (show decide (h.currentIndex - 1 ≥ 0) = true from hcu)
      show (0 : Int) ≤ h.currentIndex - 1
      omega
    · intro _
      show h.currentIndex - 1 < (h.operations.length : Int) - 1
      omega
  · intro hinv hc
    obtain ⟨h1, h2, h3, _, h5⟩ := hinv
    have hidx := h5 hc
    unfold redoHist histInv
    refine ⟨?_, ?_, ?_, ?_, ?_⟩
    · show -1 ≤ h.currentIndex + 1
      omega
    · show h.currentIndex + 1 < (h.operations.length : Int)
      omega
    · exact h3
    · intro _
      show (0 : Int) ≤ h.currentIndex + 1
      omega
    · intro hcr
      have := of_decide_eq_true
        (show decide (h.currentIndex + 1 < (h.operations.length : Int) - 1) = true from hcr)
      show h.currentIndex + 1 < (h.operations.length : Int) - 1
      omega

/-- Witness for C8 (amended): recording on the fresh empty history keeps
the invariant with `canRedo` off. -/
theorem C8_history_invariant_witness :
    histInv (recordHist ⟨[], -1, false, false⟩ ⟨0, [], 1⟩) ∧
    (recordHist ⟨[], -1, false, false⟩ ⟨0, [], 1⟩).canRedo = false :=
  let t := (C8_history_invariant ⟨[], -1, false, false⟩ ⟨0, [], 1⟩ 0).2.1 (by decide)
  ⟨t.1, t.2.1⟩

/-! ### C9 -/

/-- C9: `createSession` calls `startServer` unconditionally, and
`startServer` throws on a language that already has a registered server.
So when a first `createSession` succeeded (its server still running) and
a second call for the same language gets past the file-system stage, the
second call fails with `LSP_SERVER_EXISTS` instead of reusing the
running server. -/
theorem C9_second_create_same_language_fails (fsm : FSModel)
    (allowedDirs : List String) (st : SMState) (filePath languageId freshId : String)
    (now : Nat) (session : EditSession) (st1 : SMState)
    (filePath2 freshId2 : String) (now2 : Nat) (vp2 content2 : String)
    (h1 : createSession fsm allowedDirs st filePath languageId freshId now =
          .ok (session, st1))
    (hvp : validatePath fsm allowedDirs filePath2 = .ok vp2)
    (hex : fsExists fsm allowedDirs vp2 = .ok true)
    (hrd : fsReadFile fsm allowedDirs vp2 = .ok content2) :
    createSession fsm allowedDirs st1 filePath2 languageId freshId2 now2 =
      .error (lspError ("Server already running for " ++ languageId) "SERVER_EXISTS") := by
  have hsrv := (createSession_ok fsm allowedDirs st filePath languageId freshId now
    session st1 h1).2.2.2.2.2.1
  unfold createSession startServer
  simp only [hvp, hex, hrd, hsrv, if_true]

/-- Witness for C9 on the demo disk: opening `/allowed/Button.tsx` twice
for typescript. -/
theorem C9_second_create_same_language_fails_witness :
    createSession demoFS ["/allowed"] c2state "/allowed/Button.tsx" "typescript"
        "id2" 8 =
      .error (lspError ("Server already running for " ++ "typescript") "SERVER_EXISTS") :=
  C9_second_create_same_language_fails demoFS ["/allowed"] emptyState
    "/allowed/Button.tsx" "typescript" "id1" 7 c2session c2state
    "/allowed/Button.tsx" "id2" 8 "/allowed/Button.tsx"
    "export const Button = () => null;"
    (by decide) (by decide) (by decide) (by decide)

/-! ### C10 -/

/-- C10: `DocumentManager.applyEdits` stores the bumped dirty snapshot
*before* awaiting validation; when validation rejects with any error, the
error propagates out of the call while the committed snapshot (and its
bumped document state) remain in the store — no rollback.  The session
path of `EditOperationManager.applyEdit` behaves the same: a non-timeout
validation error is rethrown with the committed session state kept. -/
theorem C10_commit_survives_validation_error (dm : DMState) (uri : String)
    (edits : List TextEdit) (e : AppError) (now : Nat) (document : TextDocument)
    (state : DocumentState) (newContent : String) (lsp1 : LSPState)
    (hdoc : mapGet dm.documents uri = some document)
    (hstate : mapGet dm.documentStates uri = some state)
    (hae : applyEdits document edits = some newContent)
    (hgs : getServer dm.lsp document.languageId = .ok lsp1) :
    (dmApplyEdits dm uri edits (.thrown e) now).1 = .error e ∧
    mapGet (dmApplyEdits dm uri edits (.thrown e) now).2.documents uri =
      some ⟨uri, document.languageId, state.version + 1, newContent⟩ ∧
    mapGet (dmApplyEdits dm uri edits (.thrown e) now).2.documentStates uri =
      some { state with
             version := state.version + 1, isDirty := true, lastModified := now } ∧
    (∀ (st : SMState) (sid : String) (op : EditOperation) (session : EditSession)
       (edit : TextEdit) (newC : String) (lsp1' : LSPState),
       mapGet st.sessions sid = some session →
       createEdit session.document op = .ok edit →
       validateOperation op = .ok () →
       applyEdits session.document [edit] = some newC →
       getServer st.lsp session.languageId = .ok lsp1' →
       e.message ≠ "Validation timeout" →
       applyEdit st sid op (.thrown e) now =
         (.error e, committedState st sid session newC now lsp1')) := by
  refine ⟨?_, ?_, ?_, ?_⟩
  · unfold dmApplyEdits
    simp only [hdoc, hstate, hae, hgs]
  · unfold dmApplyEdits
    simp only [hdoc, hstate, hae, hgs]
    exact mapGet_mapSet_self _ _ _
  · unfold dmApplyEdits
    simp only [hdoc, hstate, hae, hgs]
    exact mapGet_mapSet_self _ _ _
  · intro st sid op session edit newC lsp1' hget hce hvo hae' hgs' hne
    unfold applyEdit
    rw [applyEditTry_forward st sid op (.thrown e) now session edit newC lsp1'
        hget hce hvo hae' hgs']
    simp only [hne, if_false]

/-- Document store holding `demoDoc` under a scheme URI. -/
def demoDM : DMState :=
  { documents := [("file:///a.ts", demoDoc)],
    documentStates := [("file:///a.ts", ⟨1, false, 0, []⟩)],
    lsp := demoLsp }

/-- Witness for C10: a concrete non-timeout validation failure leaves the
committed session snapshot in place while the error propagates. -/
theorem C10_commit_survives_validation_error_witness :
    applyEdit demoState "s1" insOp (.thrown ⟨"boom", "LSP_REQUEST_FAILED"⟩) 5 =
      (.error ⟨"boom", "LSP_REQUEST_FAILED"⟩,
       committedState demoState "s1" demoSession "xline0\nline1" 5 demoLsp) :=
  (C10_commit_survives_validation_error demoDM "file:///a.ts"
      [⟨⟨⟨0, 0⟩, ⟨0, 0⟩⟩, "y"⟩] ⟨"boom", "LSP_REQUEST_FAILED"⟩ 5 demoDoc
      ⟨1, false, 0, []⟩ "yline0\nline1" demoLsp
      (by decide) (by decide) (by decide) (by decide)).2.2.2
    demoState "s1" insOp demoSession ⟨⟨⟨0, 0⟩, ⟨0, 0⟩⟩, "x"⟩ "xline0\nline1" demoLsp
    (by decide) (by decide) (by decide) (by decide) (by decide) (by decide)

end HeadlessEditor
